import Mathlib

/-
Verification of the analytics core of `wiii_analytics` (Python).

The analyzers under `src/analyzers/` are shallowly embedded below:
Python dicts with `.get(key, default)` become structures with `Option`
fields read through `Option.getD`, Python floats become exact rationals
(`ℚ`) except where a genuine square root is taken, in which case real
numbers (`ℝ`) are used, and the `float('inf')` sentinel becomes an
explicit constructor.  `defaultdict`-based accumulation loops become
per-key folds over the input list.
-/

/-- Round half to even on rationals: the tie-breaking rule of Python's
builtin `round`.  `rndHalfEven x` is the integer nearest to `x`, with
ties resolved towards the even integer. -/
def rndHalfEven (x : ℚ) : ℤ :=
  if x - (⌊x⌋ : ℚ) < 1/2 then ⌊x⌋
  else if 1/2 < x - (⌊x⌋ : ℚ) then ⌊x⌋ + 1
  else if ⌊x⌋ % 2 = 0 then ⌊x⌋ else ⌊x⌋ + 1

/-- Python's `round(x, n)` on exact rationals. -/
def pyRound (n : ℕ) (x : ℚ) : ℚ := (rndHalfEven (x * 10 ^ n) : ℚ) / 10 ^ n

theorem rndHalfEven_nonneg {x : ℚ} (h : 0 ≤ x) : 0 ≤ rndHalfEven x := by
  have hf : (0 : ℤ) ≤ ⌊x⌋ := Int.floor_nonneg.mpr h
  unfold rndHalfEven
  split_ifs <;> omega

theorem rndHalfEven_le {x : ℚ} {z : ℤ} (h : x ≤ (z : ℚ)) : rndHalfEven x ≤ z := by
  have hf : ⌊x⌋ ≤ z := by
    have h1 : ⌊x⌋ ≤ ⌊(z : ℚ)⌋ := Int.floor_le_floor h
    simpa using h1
  rcases lt_or_eq_of_le hf with hlt | heq
  · unfold rndHalfEven
    split_ifs <;> omega
  · have hxz : x - (⌊x⌋ : ℚ) ≤ 0 := by
      rw [heq]
      linarith
    unfold rndHalfEven
    rw [if_pos (by linarith)]
    exact hf

theorem pyRound_nonneg {n : ℕ} {x : ℚ} (h : 0 ≤ x) : 0 ≤ pyRound n x := by
  unfold pyRound
  have h1 : (0 : ℤ) ≤ rndHalfEven (x * 10 ^ n) :=
    rndHalfEven_nonneg (by positivity)
  have h2 : (0 : ℚ) ≤ (rndHalfEven (x * 10 ^ n) : ℚ) := by exact_mod_cast h1
  positivity

theorem pyRound_le_div {n : ℕ} {x : ℚ} {z : ℤ} (h : x * 10 ^ n ≤ (z : ℚ)) :
    pyRound n x ≤ (z : ℚ) / 10 ^ n := by
  unfold pyRound
  have h1 : rndHalfEven (x * 10 ^ n) ≤ z := rndHalfEven_le h
  have h2 : (rndHalfEven (x * 10 ^ n) : ℚ) ≤ (z : ℚ) := by exact_mod_cast h1
  exact div_le_div_of_nonneg_right h2 (by positivity)

/-- A Python float value that is either the `float('inf')` sentinel or a
finite value (kept exact as a rational). -/
inductive PyFloat where
  | inf
  | fin (x : ℚ)
deriving DecidableEq, Repr

/-- Python's two-argument `min(p, y)`: the second argument is returned
only when it is strictly smaller than the first. -/
def PyFloat.pyMin : PyFloat → ℚ → ℚ
  | .inf, y => y
  | .fin x, y => if y < x then y else x

theorem PyFloat.pyMin_le (p : PyFloat) (y : ℚ) : p.pyMin y ≤ y := by
  cases p with
  | inf => exact le_refl y
  | fin x =>
    dsimp only [PyFloat.pyMin]
    split_ifs with h
    · exact le_refl y
    · exact le_of_not_lt h

theorem PyFloat.pyMin_inf (y : ℚ) : PyFloat.inf.pyMin y = y := rfl

namespace RiskAnalyzer

/-- Loop state of `RiskAnalyzer._calculate_streaks`. -/
structure StreakState where
  maxWin : ℕ
  maxLoss : ℕ
  curWin : ℕ
  curLoss : ℕ
deriving DecidableEq, Repr

/-- One iteration of the streak loop: `pnl > 0` extends the win streak,
resets the loss streak and updates the win-streak maximum; `pnl < 0`
does the symmetric update; `pnl == 0` changes nothing. -/
def streakStep (s : StreakState) (pnl : ℚ) : StreakState :=
  if 0 < pnl then
    { maxWin := max s.maxWin (s.curWin + 1), maxLoss := s.maxLoss,
      curWin := s.curWin + 1, curLoss := 0 }
  else if pnl < 0 then
    { maxWin := s.maxWin, maxLoss := max s.maxLoss (s.curLoss + 1),
      curWin := 0, curLoss := s.curLoss + 1 }
  else s

/-- Result dict of `RiskAnalyzer._calculate_streaks`. -/
structure Streaks where
  max_win_streak : ℕ
  max_loss_streak : ℕ
  current_streak : ℤ
deriving DecidableEq, Repr

/-- `RiskAnalyzer._calculate_streaks`. -/
def calculateStreaks (pnl_list : List ℚ) : Streaks :=
  if pnl_list = [] then ⟨0, 0, 0⟩
  else
    let s := pnl_list.foldl streakStep ⟨0, 0, 0, 0⟩
    ⟨s.maxWin, s.maxLoss, if 0 < s.curWin then (s.curWin : ℤ) else -(s.curLoss : ℤ)⟩

end RiskAnalyzer

/-- C6: a win (`pnl > 0`) extends the win streak, resets the loss streak
and never touches the loss maximum; a loss (`pnl < 0`) does the reverse;
a zero pnl leaves the whole streak state unchanged; and the pnl sequence
`[+1, +2, -1, -1, -1, +1]` yields `max_win_streak = 2`,
`max_loss_streak = 3`, `current_streak = 1`. -/
theorem c6_streak_transitions :
    (∀ (s : RiskAnalyzer.StreakState) (p : ℚ),
      (0 < p →
        (RiskAnalyzer.streakStep s p).curWin = s.curWin + 1 ∧
        (RiskAnalyzer.streakStep s p).curLoss = 0 ∧
        (RiskAnalyzer.streakStep s p).maxWin = max s.maxWin (s.curWin + 1) ∧
        (RiskAnalyzer.streakStep s p).maxLoss = s.maxLoss) ∧
      (p < 0 →
        (RiskAnalyzer.streakStep s p).curLoss = s.curLoss + 1 ∧
        (RiskAnalyzer.streakStep s p).curWin = 0 ∧
        (RiskAnalyzer.streakStep s p).maxLoss = max s.maxLoss (s.curLoss + 1) ∧
        (RiskAnalyzer.streakStep s p).maxWin = s.maxWin) ∧
      (p = 0 → RiskAnalyzer.streakStep s p = s)) ∧
    RiskAnalyzer.calculateStreaks [1, 2, -1, -1, -1, 1] = ⟨2, 3, 1⟩ := by
  constructor
  · intro s p
    refine ⟨fun hp => ?_, fun hn => ?_, fun hz => ?_⟩
    · simp [RiskAnalyzer.streakStep, hp]
    · have hnp : ¬ 0 < p := by linarith
      simp [RiskAnalyzer.streakStep, hnp, hn]
    · subst hz
      simp [RiskAnalyzer.streakStep]
  · decide

/-- Witness for C6 at a concrete state and pnl. -/
theorem c6_streak_transitions_witness :
    (0 : ℚ) < 1 ∧
      (RiskAnalyzer.streakStep ⟨0, 0, 0, 0⟩ 1).curWin = 0 + 1 :=
  ⟨by norm_num, ((c6_streak_transitions.1 ⟨0, 0, 0, 0⟩ 1).1 (by norm_num)).1⟩

namespace RiskAnalyzer

/-- An element of the equity curve passed to
`RiskAnalyzer.calculate_max_drawdown`: a dict with optional `time` and
`balance` keys (`.get("balance", 0)` reads a missing balance as 0). -/
structure EquityPoint where
  time : Option ℕ
  balance : Option ℚ
deriving DecidableEq, Repr

instance : Inhabited EquityPoint := ⟨⟨none, none⟩⟩

/-- Loop state of `calculate_max_drawdown`. -/
structure DrawdownState where
  peak : ℚ
  maxDdPct : ℚ
  maxDdUsd : ℚ
  ddStart : Option ℕ
  currentDdStart : Option ℕ
deriving DecidableEq, Repr

/-- `(peak - balance) / peak * 100 if peak > 0 else 0`. -/
def ddPctOf (peak balance : ℚ) : ℚ :=
  if 0 < peak then (peak - balance) / peak * 100 else 0

/-- One iteration of the `calculate_max_drawdown` loop. -/
def drawdownStep (s : DrawdownState) (point : EquityPoint) : DrawdownState :=
  if s.peak < point.balance.getD 0 then
    { s with peak := point.balance.getD 0, currentDdStart := none }
  else if s.maxDdPct < ddPctOf s.peak (point.balance.getD 0) then
    { peak := s.peak,
      maxDdPct := ddPctOf s.peak (point.balance.getD 0),
      maxDdUsd := s.peak - point.balance.getD 0,
      ddStart := s.currentDdStart <|> point.time,
      currentDdStart := s.currentDdStart <|> point.time }
  else
    { s with currentDdStart := s.currentDdStart <|> point.time }

/-- Result dict of `calculate_max_drawdown`; the short-circuit branch for
fewer than two points carries no `peak_before_dd` key, hence the
`Option`. -/
structure DrawdownResult where
  max_drawdown_pct : ℚ
  max_drawdown_usd : ℚ
  peak_before_dd : Option ℚ
deriving DecidableEq, Repr

/-- `RiskAnalyzer.calculate_max_drawdown`. -/
def calculateMaxDrawdown (equity_curve : List EquityPoint) : DrawdownResult :=
  if equity_curve.length < 2 then ⟨0, 0, none⟩
  else
    let s := equity_curve.foldl drawdownStep
      ⟨equity_curve.headI.balance.getD 0, 0, 0, none, none⟩
    ⟨pyRound 2 s.maxDdPct, pyRound 2 s.maxDdUsd, some (pyRound 2 s.peak)⟩

/-- The loop invariant behind the drawdown-percentage bounds. -/
def DdInv (s : DrawdownState) : Prop :=
  0 ≤ s.peak ∧ 0 ≤ s.maxDdPct ∧ s.maxDdPct ≤ 100

theorem ddPctOf_bounds {peak balance : ℚ} (hb : 0 ≤ balance)
    (hble : balance ≤ peak) :
    0 ≤ ddPctOf peak balance ∧ ddPctOf peak balance ≤ 100 := by
  unfold ddPctOf
  split_ifs with h3
  · constructor
    · have hnum : 0 ≤ peak - balance := by linarith
      positivity
    · have hq : (peak - balance) / peak ≤ 1 := by
        rw [div_le_one h3]
        linarith
      linarith
  · exact ⟨le_refl 0, by norm_num⟩

theorem drawdownStep_inv {s : DrawdownState} {p : EquityPoint}
    (hb : 0 ≤ p.balance.getD 0) (hs : DdInv s) : DdInv (drawdownStep s p) := by
  obtain ⟨hpk, hlo, hhi⟩ := hs
  unfold drawdownStep
  split_ifs with h1 h2
  · exact ⟨hb, hlo, hhi⟩
  · have hble : p.balance.getD 0 ≤ s.peak := le_of_not_lt h1
    have hbd := ddPctOf_bounds hb hble
    exact ⟨hpk, hbd.1, hbd.2⟩
  · exact ⟨hpk, hlo, hhi⟩

theorem drawdown_foldl_inv (l : List EquityPoint) (s : DrawdownState)
    (hl : ∀ p ∈ l, 0 ≤ p.balance.getD 0) (hs : DdInv s) :
    DdInv (l.foldl drawdownStep s) := by
  induction l generalizing s with
  | nil => exact hs
  | cons p t ih =>
    have hp : 0 ≤ p.balance.getD 0 := hl p (List.mem_cons_self p t)
    exact ih (drawdownStep s p) (fun q hq => hl q (List.mem_cons_of_mem p hq))
      (drawdownStep_inv hp hs)

end RiskAnalyzer

/-- C7: for every equity curve whose balances are all non-negative, the
`max_drawdown_pct` reported by `calculate_max_drawdown` lies in
`[0, 100]`. -/
theorem c7_drawdown_pct_bounds (curve : List RiskAnalyzer.EquityPoint)
    (h : ∀ p ∈ curve, 0 ≤ p.balance.getD 0) :
    0 ≤ (RiskAnalyzer.calculateMaxDrawdown curve).max_drawdown_pct ∧
      (RiskAnalyzer.calculateMaxDrawdown curve).max_drawdown_pct ≤ 100 := by
  unfold RiskAnalyzer.calculateMaxDrawdown
  split_ifs with hlen
  · exact ⟨le_refl 0, by norm_num⟩
  · match curve, h with
    | p :: t, h =>
      have hhead : 0 ≤ (p :: t).headI.balance.getD 0 :=
        h p (List.mem_cons_self p t)
      have hinv := RiskAnalyzer.drawdown_foldl_inv (p :: t)
        ⟨(p :: t).headI.balance.getD 0, 0, 0, none, none⟩ h
        ⟨hhead, le_refl 0, by norm_num⟩
      obtain ⟨hpk, hlo, hhi⟩ := hinv
      constructor
      · exact pyRound_nonneg hlo
      · have h1 : ((p :: t).foldl RiskAnalyzer.drawdownStep
            ⟨(p :: t).headI.balance.getD 0, 0, 0, none, none⟩).maxDdPct * 10 ^ 2 ≤
            ((10000 : ℤ) : ℚ) := by push_cast; nlinarith
        have h2 := pyRound_le_div h1
        calc pyRound 2 ((p :: t).foldl RiskAnalyzer.drawdownStep
              ⟨(p :: t).headI.balance.getD 0, 0, 0, none, none⟩).maxDdPct ≤
            ((10000 : ℤ) : ℚ) / 10 ^ 2 := h2
          _ = 100 := by norm_num

/-- Witness for C7 on a concrete two-point curve. -/
theorem c7_drawdown_pct_bounds_witness :
    0 ≤ (RiskAnalyzer.calculateMaxDrawdown
        [⟨some 1, some 100⟩, ⟨some 2, some 60⟩]).max_drawdown_pct ∧
      (RiskAnalyzer.calculateMaxDrawdown
        [⟨some 1, some 100⟩, ⟨some 2, some 60⟩]).max_drawdown_pct ≤ 100 :=
  c7_drawdown_pct_bounds [⟨some 1, some 100⟩, ⟨some 2, some 60⟩]
    (by intro p hp; fin_cases hp <;> norm_num)

/-- C9 (code bug): on the curve `100 → 50 → 200` the retained maximum
drawdown is the 50% fall measured from the running peak 100, yet the
returned `peak_before_dd` field is 200 — the running peak at the end of
the curve, not the peak the maximum drawdown was measured from. -/
theorem c9_peak_before_dd_eval :
    RiskAnalyzer.calculateMaxDrawdown
        [⟨some 1, some 100⟩, ⟨some 2, some 50⟩, ⟨some 3, some 200⟩] =
      ⟨50, 50, some 200⟩ ∧
    RiskAnalyzer.ddPctOf 100 50 = 50 ∧ (200 : ℚ) ≠ 100 := by
  refine ⟨?_, ?_, by norm_num⟩
  · norm_num [RiskAnalyzer.calculateMaxDrawdown, RiskAnalyzer.drawdownStep,
      RiskAnalyzer.ddPctOf, pyRound, rndHalfEven]
  · norm_num [RiskAnalyzer.ddPctOf]

namespace RiskAnalyzer

/-- A trade dict as read by `RiskAnalyzer.calculate_trade_stats`
(`t.get("realized_pnl", 0)`). -/
structure RTrade where
  realized_pnl : Option ℚ
deriving DecidableEq, Repr

/-- `[t.get("realized_pnl", 0) for t in trades]`. -/
def pnlListOf (trades : List RTrade) : List ℚ :=
  trades.map (fun t => t.realized_pnl.getD 0)

/-- `[p for p in pnl_list if p > 0]`. -/
def winnersOf (l : List ℚ) : List ℚ := l.filter (fun p => 0 < p)

/-- `[p for p in pnl_list if p < 0]`. -/
def losersOf (l : List ℚ) : List ℚ := l.filter (fun p => p < 0)

/-- `sum(winners) if winners else 0`. -/
def grossProfitOf (l : List ℚ) : ℚ :=
  if winnersOf l = [] then 0 else (winnersOf l).sum

/-- `abs(sum(losers)) if losers else 0`. -/
def grossLossOf (l : List ℚ) : ℚ :=
  if losersOf l = [] then 0 else |(losersOf l).sum|

/-- `len(winners) / len(pnl_list) * 100 if pnl_list else 0`. -/
def winRateOf (l : List ℚ) : ℚ :=
  if l = [] then 0 else ((winnersOf l).length : ℚ) / l.length * 100

/-- `gross_profit / len(winners) if winners else 0`. -/
def avgWinOf (l : List ℚ) : ℚ :=
  if winnersOf l = [] then 0 else grossProfitOf l / (winnersOf l).length

/-- `gross_loss / len(losers) if losers else 0`. -/
def avgLossOf (l : List ℚ) : ℚ :=
  if losersOf l = [] then 0 else grossLossOf l / (losersOf l).length

/-- `gross_profit / gross_loss if gross_loss > 0 else float('inf')`. -/
def profitFactorOf (l : List ℚ) : PyFloat :=
  if 0 < grossLossOf l then .fin (grossProfitOf l / grossLossOf l) else .inf

/-- `avg_win / avg_loss if avg_loss > 0 else float('inf')`. -/
def riskRewardOf (l : List ℚ) : PyFloat :=
  if 0 < avgLossOf l then .fin (avgWinOf l / avgLossOf l) else .inf

/-- `max(winners) if winners else 0`. -/
def maxOr0 : List ℚ → ℚ
  | [] => 0
  | h :: t => t.foldl max h

/-- `min(losers) if losers else 0`. -/
def minOr0 : List ℚ → ℚ
  | [] => 0
  | h :: t => t.foldl min h

/-- Result dict of `RiskAnalyzer.calculate_trade_stats` (with the streak
fields merged in via `**streaks`). -/
structure TradeStats where
  total_trades : ℕ
  winning_trades : ℕ
  losing_trades : ℕ
  win_rate : ℚ
  gross_profit : ℚ
  gross_loss : ℚ
  net_profit : ℚ
  avg_win : ℚ
  avg_loss : ℚ
  profit_factor : ℚ
  risk_reward : ℚ
  expectancy_per_trade : ℚ
  largest_win : ℚ
  largest_loss : ℚ
  max_win_streak : ℕ
  max_loss_streak : ℕ
  current_streak : ℤ
deriving DecidableEq, Repr

/-- `RiskAnalyzer.calculate_trade_stats`; the empty-dict return for an
empty trade list is modelled as `none`. -/
def calculateTradeStats (trades : List RTrade) : Option TradeStats :=
  if trades = [] then none
  else
    let l := pnlListOf trades
    some {
      total_trades := l.length
      winning_trades := (winnersOf l).length
      losing_trades := (losersOf l).length
      win_rate := pyRound 1 (winRateOf l)
      gross_profit := pyRound 2 (grossProfitOf l)
      gross_loss := pyRound 2 (grossLossOf l)
      net_profit := pyRound 2 (grossProfitOf l - grossLossOf l)
      avg_win := pyRound 4 (avgWinOf l)
      avg_loss := pyRound 4 (avgLossOf l)
      profit_factor := pyRound 2 ((profitFactorOf l).pyMin 99.99)
      risk_reward := pyRound 2 ((riskRewardOf l).pyMin 99.99)
      expectancy_per_trade := pyRound 4
        (winRateOf l / 100 * avgWinOf l - (100 - winRateOf l) / 100 * avgLossOf l)
      largest_win := pyRound 2 (maxOr0 (winnersOf l))
      largest_loss := pyRound 2 (minOr0 (losersOf l))
      max_win_streak := (calculateStreaks l).max_win_streak
      max_loss_streak := (calculateStreaks l).max_loss_streak
      current_streak := (calculateStreaks l).current_streak }

end RiskAnalyzer

theorem pyRound2_le_clamp {x : ℚ} (h : x ≤ 99.99) : pyRound 2 x ≤ 99.99 := by
  have h1 : x * 10 ^ 2 ≤ ((9999 : ℤ) : ℚ) := by
    push_cast
    nlinarith
  calc pyRound 2 x ≤ ((9999 : ℤ) : ℚ) / 10 ^ 2 := pyRound_le_div h1
    _ = 99.99 := by norm_num

theorem pyRound2_of_clamp : pyRound 2 (99.99 : ℚ) = 99.99 := by
  norm_num [pyRound, rndHalfEven]

/-- C5: for every non-empty trade list `calculate_trade_stats` returns a
result (no division fault) whose `profit_factor` and
`risk_reward_ratio` fields are at most 99.99; when the gross loss is 0
the profit factor is exactly 99.99, and when the average loss is 0 the
risk/reward ratio is exactly 99.99. -/
theorem c5_profit_factor_clamp :
    (∀ trades : List RiskAnalyzer.RTrade, trades ≠ [] →
      (RiskAnalyzer.calculateTradeStats trades).isSome = true) ∧
    (∀ (trades : List RiskAnalyzer.RTrade) (st : RiskAnalyzer.TradeStats),
      RiskAnalyzer.calculateTradeStats trades = some st →
      st.profit_factor ≤ 99.99 ∧ st.risk_reward ≤ 99.99 ∧
      (RiskAnalyzer.grossLossOf (RiskAnalyzer.pnlListOf trades) = 0 →
        st.profit_factor = 99.99) ∧
      (RiskAnalyzer.avgLossOf (RiskAnalyzer.pnlListOf trades) = 0 →
        st.risk_reward = 99.99)) := by
  constructor
  · intro trades h
    unfold RiskAnalyzer.calculateTradeStats
    rw [if_neg h]
    rfl
  · intro trades st h
    have hnil : trades ≠ [] := by
      intro he
      rw [he] at h
      simp [RiskAnalyzer.calculateTradeStats] at h
    rw [RiskAnalyzer.calculateTradeStats, if_neg hnil] at h
    simp only [Option.some.injEq] at h
    · subst h
      refine ⟨?_, ?_, ?_, ?_⟩
      · exact pyRound2_le_clamp
          (PyFloat.pyMin_le (RiskAnalyzer.profitFactorOf
            (RiskAnalyzer.pnlListOf trades)) 99.99)
      · exact pyRound2_le_clamp
          (PyFloat.pyMin_le (RiskAnalyzer.riskRewardOf
            (RiskAnalyzer.pnlListOf trades)) 99.99)
      · intro hgl
        have hpf : RiskAnalyzer.profitFactorOf (RiskAnalyzer.pnlListOf trades) =
            .inf := by
          unfold RiskAnalyzer.profitFactorOf
          rw [hgl]
          norm_num
        show pyRound 2 ((RiskAnalyzer.profitFactorOf
          (RiskAnalyzer.pnlListOf trades)).pyMin 99.99) = 99.99
        rw [hpf, PyFloat.pyMin_inf]
        exact pyRound2_of_clamp
      · intro hal
        have hrr : RiskAnalyzer.riskRewardOf (RiskAnalyzer.pnlListOf trades) =
            .inf := by
          unfold RiskAnalyzer.riskRewardOf
          rw [hal]
          norm_num
        show pyRound 2 ((RiskAnalyzer.riskRewardOf
          (RiskAnalyzer.pnlListOf trades)).pyMin 99.99) = 99.99
        rw [hrr, PyFloat.pyMin_inf]
        exact pyRound2_of_clamp

/-- Witness for C5: a single winning trade has no losers, so both
clamped ratio fields come out as exactly 99.99. -/
theorem c5_profit_factor_clamp_witness :
    RiskAnalyzer.calculateTradeStats [⟨some 1⟩] =
      some ⟨1, 1, 0, 100, 1, 0, 1, 1, 0, 99.99, 99.99, 1, 1, 0, 1, 0, 1⟩ ∧
    (99.99 : ℚ) ≤ 99.99 ∧ (99.99 : ℚ) = 99.99 := by
  have heq : RiskAnalyzer.calculateTradeStats [⟨some 1⟩] =
      some ⟨1, 1, 0, 100, 1, 0, 1, 1, 0, 99.99, 99.99, 1, 1, 0, 1, 0, 1⟩ := by
    norm_num [RiskAnalyzer.calculateTradeStats, RiskAnalyzer.pnlListOf,
      RiskAnalyzer.winnersOf, RiskAnalyzer.losersOf, RiskAnalyzer.grossProfitOf,
      RiskAnalyzer.grossLossOf, RiskAnalyzer.winRateOf, RiskAnalyzer.avgWinOf,
      RiskAnalyzer.avgLossOf, RiskAnalyzer.profitFactorOf,
      RiskAnalyzer.riskRewardOf, RiskAnalyzer.maxOr0, RiskAnalyzer.minOr0,
      RiskAnalyzer.calculateStreaks, RiskAnalyzer.streakStep,
      PyFloat.pyMin, pyRound, rndHalfEven]
  have hb := (c5_profit_factor_clamp.2 [⟨some 1⟩] _ heq).1
  have hc := ((c5_profit_factor_clamp.2 [⟨some 1⟩] _ heq).2.2.1 (by
    norm_num [RiskAnalyzer.grossLossOf, RiskAnalyzer.losersOf,
      RiskAnalyzer.pnlListOf]))
  exact ⟨heq, hb, hc⟩

namespace SignalAnalyzer

/-- A trade dict as read by `SignalAnalyzer.analyze_by_confidence`
(`t.get("confidence", 0.5)`, `t.get("realized_pnl", 0)`). -/
structure STrade where
  confidence : Option ℚ
  realized_pnl : Option ℚ
deriving DecidableEq, Repr

/-- `trade.get("confidence", 0.5)`. -/
def confVal (t : STrade) : ℚ := t.confidence.getD (1/2)

/-- The three confidence buckets, in the iteration order of the
`buckets` dict. -/
inductive ConfBucket where
  | low
  | medium
  | high
deriving DecidableEq, Repr

/-- The bucket-assignment loop: the first bucket (in dict order) with
`bucket["min"] <= confidence < bucket["max"]` wins (then `break`); a
confidence matching no bucket is dropped.  Bounds: low `[0, 0.4)`,
medium `[0.4, 0.7)`, high `[0.7, 1.0)`. -/
def assignBucket (c : ℚ) : Option ConfBucket :=
  if 0 ≤ c ∧ c < 2/5 then some .low
  else if 2/5 ≤ c ∧ c < 7/10 then some .medium
  else if 7/10 ≤ c ∧ c < 1 then some .high
  else none

/-- The trades accumulated into `buckets[b]["trades"]`. -/
def bucketTrades (trades : List STrade) (b : ConfBucket) : List STrade :=
  trades.filter (fun t => assignBucket (confVal t) = some b)

/-- Per-bucket entry of the `by_confidence` result dict. -/
structure BucketStats where
  trade_count : ℕ
  win_count : ℕ
  win_rate : ℚ
  total_pnl : ℚ
  avg_pnl : ℚ
deriving DecidableEq, Repr

/-- The per-bucket statistics block of `analyze_by_confidence`. -/
def bucketStats (trades : List STrade) (b : ConfBucket) : BucketStats :=
  { trade_count := (bucketTrades trades b).length
    win_count :=
      ((bucketTrades trades b).filter (fun t => 0 < t.realized_pnl.getD 0)).length
    win_rate :=
      if 0 < (bucketTrades trades b).length then
        pyRound 1
          ((((bucketTrades trades b).filter
              (fun t => 0 < t.realized_pnl.getD 0)).length : ℚ) /
            (bucketTrades trades b).length * 100)
      else 0
    total_pnl :=
      pyRound 2 ((bucketTrades trades b).map (fun t => t.realized_pnl.getD 0)).sum
    avg_pnl :=
      if 0 < (bucketTrades trades b).length then
        pyRound 4
          (((bucketTrades trades b).map (fun t => t.realized_pnl.getD 0)).sum /
            (bucketTrades trades b).length)
      else 0 }

/-- Result dict of `SignalAnalyzer.analyze_by_confidence`. -/
structure ConfidenceReport where
  low : BucketStats
  medium : BucketStats
  high : BucketStats
  confidence_correlation_valid : Bool
  recommendation : String
deriving DecidableEq, Repr

/-- `SignalAnalyzer.analyze_by_confidence`. -/
def analyzeByConfidence (trades : List STrade) : ConfidenceReport :=
  { low := bucketStats trades .low
    medium := bucketStats trades .medium
    high := bucketStats trades .high
    confidence_correlation_valid :=
      decide ((bucketStats trades .medium).win_rate ≤
          (bucketStats trades .high).win_rate ∧
        (bucketStats trades .low).win_rate ≤ (bucketStats trades .medium).win_rate)
    recommendation :=
      if (bucketStats trades .medium).win_rate ≤ (bucketStats trades .high).win_rate ∧
          (bucketStats trades .low).win_rate ≤ (bucketStats trades .medium).win_rate
      then "Confidence scoring is effective"
      else "Consider re-calibrating confidence model" }

theorem assignBucket_isSome {c : ℚ} (h0 : 0 ≤ c) (h1 : c < 1) :
    (assignBucket c).isSome = true := by
  unfold assignBucket
  split_ifs with h2 h3 h4
  · rfl
  · rfl
  · rfl
  · exfalso
    have k1 : 2/5 ≤ c := not_lt.mp (fun hc => h2 ⟨h0, hc⟩)
    have k2 : 7/10 ≤ c := not_lt.mp (fun hc => h3 ⟨k1, hc⟩)
    exact h4 ⟨k2, h1⟩

theorem bucketTrades_length_sum (trades : List STrade)
    (h : ∀ t ∈ trades, (assignBucket (confVal t)).isSome = true) :
    (bucketTrades trades .low).length + (bucketTrades trades .medium).length +
      (bucketTrades trades .high).length = trades.length := by
  induction trades with
  | nil => simp [bucketTrades]
  | cons a t ih =>
    have ha := h a (List.mem_cons_self a t)
    have ht := ih (fun x hx => h x (List.mem_cons_of_mem a hx))
    obtain ⟨b, hb⟩ := Option.isSome_iff_exists.mp ha
    unfold bucketTrades at *
    rw [List.filter_cons, List.filter_cons, List.filter_cons]
    cases b with
    | low => simp only [hb, List.length_cons]; simp; omega
    | medium => simp only [hb, List.length_cons]; simp; omega
    | high => simp only [hb, List.length_cons]; simp; omega

end SignalAnalyzer

/-- C1 (counterexample): a single trade with confidence exactly 1.0 —
which lies in `[0, 1]` — is assigned to no confidence bucket, so the
three bucket trade counts sum to 0, not to the input length 1. -/
theorem c1_confidence_sum_counterexample :
    (0 : ℚ) ≤ SignalAnalyzer.confVal ⟨some 1, some 5⟩ ∧
    SignalAnalyzer.confVal ⟨some 1, some 5⟩ ≤ 1 ∧
    (SignalAnalyzer.analyzeByConfidence [⟨some 1, some 5⟩]).low.trade_count +
      (SignalAnalyzer.analyzeByConfidence [⟨some 1, some 5⟩]).medium.trade_count +
      (SignalAnalyzer.analyzeByConfidence [⟨some 1, some 5⟩]).high.trade_count = 0 ∧
    [(⟨some 1, some 5⟩ : SignalAnalyzer.STrade)].length = 1 := by
  refine ⟨by norm_num [SignalAnalyzer.confVal], by norm_num [SignalAnalyzer.confVal],
    ?_, by norm_num⟩
  norm_num [SignalAnalyzer.analyzeByConfidence, SignalAnalyzer.bucketStats,
    SignalAnalyzer.bucketTrades, SignalAnalyzer.assignBucket, SignalAnalyzer.confVal,
    List.filter_cons]
  simp

/-- C1 (amended): the bucket counts of `analyze_by_confidence` partition
the trades whose (defaulted) confidence lies in the half-open interval
`[0, 1)`; the high bucket is `[0.7, 1.0)`, also half-open, and a
confidence of exactly 1.0 falls into no bucket. -/
theorem c1_confidence_partition :
    (∀ trades : List SignalAnalyzer.STrade,
      (∀ t ∈ trades, 0 ≤ SignalAnalyzer.confVal t ∧ SignalAnalyzer.confVal t < 1) →
      (SignalAnalyzer.analyzeByConfidence trades).low.trade_count +
        (SignalAnalyzer.analyzeByConfidence trades).medium.trade_count +
        (SignalAnalyzer.analyzeByConfidence trades).high.trade_count =
        trades.length) ∧
    (∀ c : ℚ, 7/10 ≤ c → c < 1 →
      SignalAnalyzer.assignBucket c = some SignalAnalyzer.ConfBucket.high) ∧
    SignalAnalyzer.assignBucket 1 = none := by
  refine ⟨?_, ?_, by norm_num [SignalAnalyzer.assignBucket]⟩
  · intro trades h
    exact SignalAnalyzer.bucketTrades_length_sum trades
      (fun t ht => SignalAnalyzer.assignBucket_isSome (h t ht).1 (h t ht).2)
  · intro c h7 h1
    unfold SignalAnalyzer.assignBucket
    rw [if_neg (by rintro ⟨-, hc⟩; linarith), if_neg (by rintro ⟨-, hc⟩; linarith),
      if_pos ⟨h7, h1⟩]

/-- Witness for C1 on a defaulted-confidence trade (0.5, medium). -/
theorem c1_confidence_partition_witness :
    (0 ≤ SignalAnalyzer.confVal ⟨none, some 1⟩ ∧
      SignalAnalyzer.confVal ⟨none, some 1⟩ < 1) ∧
    (SignalAnalyzer.analyzeByConfidence [⟨none, some 1⟩]).low.trade_count +
      (SignalAnalyzer.analyzeByConfidence [⟨none, some 1⟩]).medium.trade_count +
      (SignalAnalyzer.analyzeByConfidence [⟨none, some 1⟩]).high.trade_count = 1 :=
  ⟨by norm_num [SignalAnalyzer.confVal],
    c1_confidence_partition.1 [⟨none, some 1⟩]
      (by intro t ht; fin_cases ht; norm_num [SignalAnalyzer.confVal])⟩

theorem pyRound_zero (n : ℕ) : pyRound n 0 = 0 := by
  norm_num [pyRound, rndHalfEven]

/-- Local (Vietnam) hour of an epoch-millisecond timestamp:
`(utc_hour + 7) % 24` with `utc_hour` the UTC hour of `ts / 1000`
seconds. -/
def vnHour (ts : ℕ) : ℕ := (ts / 1000 / 3600 % 24 + 7) % 24

namespace TimeAnalyzer

/-- An income-record dict as read by `TimeAnalyzer` and
`SymbolAnalyzer` (`.get("symbol", "UNKNOWN")`, `.get("income_type")`,
`.get("timestamp", 0)`, `.get("income", 0)`). -/
structure IncomeRecord where
  symbol : Option String
  income_type : Option String
  timestamp : Option ℕ
  income : Option ℚ
deriving DecidableEq, Repr

/-- Whether a record is accumulated into hour bucket `i` by
`TimeAnalyzer.analyze_by_hour`: only the `income_type` filter and the
bucket key — a falsy timestamp is NOT skipped, it is read as 0. -/
def hourContrib (i : ℕ) (r : IncomeRecord) : Bool :=
  decide (r.income_type = some "REALIZED_PNL" ∧ vnHour (r.timestamp.getD 0) = i)

/-- One `hourly_stats[vn_hour]` accumulator of `analyze_by_hour`. -/
structure HourAcc where
  pnl : ℚ
  trades : ℕ
  wins : ℕ
deriving DecidableEq, Repr

/-- One iteration of the `analyze_by_hour` loop, restricted to the
bucket of hour `i` (the per-key view of the `defaultdict`). -/
def hourStep (i : ℕ) (acc : HourAcc) (r : IncomeRecord) : HourAcc :=
  if hourContrib i r then
    { pnl := acc.pnl + r.income.getD 0
      trades := acc.trades + 1
      wins := acc.wins + if 0 < r.income.getD 0 then 1 else 0 }
  else acc

/-- The accumulator of hour `i` after the `analyze_by_hour` loop. -/
def hourStatsAt (recs : List IncomeRecord) (i : ℕ) : HourAcc :=
  recs.foldl (hourStep i) ⟨0, 0, 0⟩

/-- One element of the list returned by `analyze_by_hour`. -/
structure HourEntry where
  hour : ℕ
  total_pnl : ℚ
  trade_count : ℕ
  win_count : ℕ
  win_rate : ℚ
deriving DecidableEq, Repr

/-- The entry built for hour `i` in the result loop of
`analyze_by_hour`. -/
def mkHourEntry (recs : List IncomeRecord) (i : ℕ) : HourEntry :=
  { hour := i
    total_pnl := pyRound 2 (hourStatsAt recs i).pnl
    trade_count := (hourStatsAt recs i).trades
    win_count := (hourStatsAt recs i).wins
    win_rate :=
      if 0 < (hourStatsAt recs i).trades then
        pyRound 1
          (((hourStatsAt recs i).wins : ℚ) / (hourStatsAt recs i).trades * 100)
      else 0 }

/-- The entry produced for an hour that received no records. -/
def zeroHourEntry (i : ℕ) : HourEntry := ⟨i, 0, 0, 0, 0⟩

/-- `TimeAnalyzer.analyze_by_hour`. -/
def analyzeByHour (income_records : List IncomeRecord) : List HourEntry :=
  (List.range 24).map (mkHourEntry income_records)

theorem hourStats_trades_aux (i : ℕ) (recs : List IncomeRecord) (acc : HourAcc) :
    (recs.foldl (hourStep i) acc).trades = acc.trades + recs.countP (hourContrib i) := by
  induction recs generalizing acc with
  | nil => simp
  | cons r t ih =>
    rw [List.foldl_cons, List.countP_cons, ih]
    have hstep : (hourStep i acc r).trades =
        acc.trades + (if hourContrib i r then 1 else 0) := by
      unfold hourStep
      split_ifs <;> simp
    rw [hstep]
    split_ifs <;> omega

theorem hourStats_trades (recs : List IncomeRecord) (i : ℕ) :
    (hourStatsAt recs i).trades = recs.countP (hourContrib i) := by
  unfold hourStatsAt
  rw [hourStats_trades_aux]
  simp

theorem hourStats_zero_aux (i : ℕ) (recs : List IncomeRecord) (acc : HourAcc)
    (h : recs.countP (hourContrib i) = 0) :
    recs.foldl (hourStep i) acc = acc := by
  induction recs generalizing acc with
  | nil => rfl
  | cons r t ih =>
    rw [List.countP_cons] at h
    have hr : hourContrib i r = false := by
      by_contra hc
      rw [Bool.not_eq_false] at hc
      rw [hc] at h
      simp at h
    rw [hr] at h
    simp at h
    rw [List.foldl_cons]
    have hstep : hourStep i acc r = acc := by
      unfold hourStep
      rw [hr]
      simp
    rw [hstep]
    exact ih acc (List.countP_eq_zero.mpr (fun a ha => by simp [h a ha]))

theorem mkHourEntry_zero (recs : List IncomeRecord) (i : ℕ)
    (h : recs.countP (hourContrib i) = 0) :
    mkHourEntry recs i = zeroHourEntry i := by
  unfold mkHourEntry zeroHourEntry
  have hz : hourStatsAt recs i = ⟨0, 0, 0⟩ := hourStats_zero_aux i recs ⟨0, 0, 0⟩ h
  rw [hz]
  simp [pyRound_zero]

end TimeAnalyzer

namespace ExecutionAnalyzer

/-- A trade dict as read by
`ExecutionAnalyzer.analyze_execution_by_hour` (`.get("timestamp", 0)`,
`.get("quantity", 0)`, `.get("price", 0)`, `.get("commission", 0)`). -/
structure ETrade where
  timestamp : Option ℕ
  quantity : Option ℚ
  price : Option ℚ
  commission : Option ℚ
deriving DecidableEq, Repr

/-- Whether a trade is accumulated into hour bucket `i` by
`analyze_execution_by_hour`: a falsy (zero/absent) timestamp is skipped
(`if not timestamp_ms: continue`). -/
def execContrib (i : ℕ) (t : ETrade) : Bool :=
  decide (t.timestamp.getD 0 ≠ 0 ∧ vnHour (t.timestamp.getD 0) = i)

/-- One `hourly_stats[vn_hour]` accumulator of
`analyze_execution_by_hour`. -/
structure ExecHourAcc where
  volume : ℚ
  commission : ℚ
  trade_count : ℕ
deriving DecidableEq, Repr

/-- One iteration of the `analyze_execution_by_hour` loop, restricted
to the bucket of hour `i`. -/
def execHourStep (i : ℕ) (acc : ExecHourAcc) (t : ETrade) : ExecHourAcc :=
  if execContrib i t then
    { volume := acc.volume + |t.quantity.getD 0 * t.price.getD 0|
      commission := acc.commission + |t.commission.getD 0|
      trade_count := acc.trade_count + 1 }
  else acc

/-- The accumulator of hour `i` after the loop. -/
def execHourStatsAt (trades : List ETrade) (i : ℕ) : ExecHourAcc :=
  trades.foldl (execHourStep i) ⟨0, 0, 0⟩

/-- One element of the list returned by `analyze_execution_by_hour`. -/
structure ExecHourEntry where
  hour : ℕ
  trade_count : ℕ
  volume : ℚ
  commission : ℚ
  effective_fee_pct : ℚ
deriving DecidableEq, Repr

/-- The entry built for hour `i` in the result loop. -/
def mkExecHourEntry (trades : List ETrade) (i : ℕ) : ExecHourEntry :=
  { hour := i
    trade_count := (execHourStatsAt trades i).trade_count
    volume := pyRound 2 (execHourStatsAt trades i).volume
    commission := pyRound 4 (execHourStatsAt trades i).commission
    effective_fee_pct :=
      if 0 < (execHourStatsAt trades i).volume then
        pyRound 4
          ((execHourStatsAt trades i).commission /
            (execHourStatsAt trades i).volume * 100)
      else 0 }

/-- The entry produced for an hour that received no trades. -/
def zeroExecHourEntry (i : ℕ) : ExecHourEntry := ⟨i, 0, 0, 0, 0⟩

/-- `ExecutionAnalyzer.analyze_execution_by_hour`. -/
def analyzeExecutionByHour (trades : List ETrade) : List ExecHourEntry :=
  (List.range 24).map (mkExecHourEntry trades)

theorem execHourStats_zero_aux (i : ℕ) (trades : List ETrade) (acc : ExecHourAcc)
    (h : trades.countP (execContrib i) = 0) :
    trades.foldl (execHourStep i) acc = acc := by
  induction trades generalizing acc with
  | nil => rfl
  | cons r t ih =>
    rw [List.countP_cons] at h
    have hr : execContrib i r = false := by
      by_contra hc
      rw [Bool.not_eq_false] at hc
      rw [hc] at h
      simp at h
    rw [hr] at h
    simp at h
    rw [List.foldl_cons]
    have hstep : execHourStep i acc r = acc := by
      unfold execHourStep
      rw [hr]
      simp
    rw [hstep]
    exact ih acc (List.countP_eq_zero.mpr (fun a ha => by simp [h a ha]))

theorem mkExecHourEntry_zero (trades : List ETrade) (i : ℕ)
    (h : trades.countP (execContrib i) = 0) :
    mkExecHourEntry trades i = zeroExecHourEntry i := by
  unfold mkExecHourEntry zeroExecHourEntry
  have hz : execHourStatsAt trades i = ⟨0, 0, 0⟩ :=
    execHourStats_zero_aux i trades ⟨0, 0, 0⟩ h
  rw [hz]
  simp [pyRound_zero]

theorem execHourStats_filter_aux (i : ℕ) (trades : List ETrade) (acc : ExecHourAcc) :
    (trades.filter (fun t => t.timestamp.getD 0 ≠ 0)).foldl (execHourStep i) acc =
      trades.foldl (execHourStep i) acc := by
  induction trades generalizing acc with
  | nil => rfl
  | cons r t ih =>
    by_cases hk : r.timestamp.getD 0 ≠ 0
    · rw [List.filter_cons_of_pos (by simpa using hk), List.foldl_cons,
        List.foldl_cons, ih]
    · have h0 : r.timestamp.getD 0 = 0 := by
        by_contra hc
        exact hk hc
      have hstep : execHourStep i acc r = acc := by
        unfold execHourStep execContrib
        rw [h0]
        simp
      rw [List.filter_cons_of_neg (by simpa using hk), List.foldl_cons, hstep, ih]

theorem execHourStats_filter (trades : List ETrade) (i : ℕ) :
    execHourStatsAt (trades.filter (fun t => t.timestamp.getD 0 ≠ 0)) i =
      execHourStatsAt trades i := by
  unfold execHourStatsAt
  exact execHourStats_filter_aux i trades ⟨0, 0, 0⟩

end ExecutionAnalyzer

/-- C2: both hourly aggregations return exactly 24 entries whose `hour`
fields are `0..23` in order, and an hour that received no (contributing)
records gets the all-zero statistics entry. -/
theorem c2_hourly_always_24 :
    (∀ recs : List TimeAnalyzer.IncomeRecord,
      (TimeAnalyzer.analyzeByHour recs).length = 24 ∧
      (TimeAnalyzer.analyzeByHour recs).map (fun e => e.hour) = List.range 24 ∧
      (∀ i : ℕ, i < 24 → recs.countP (TimeAnalyzer.hourContrib i) = 0 →
        (TimeAnalyzer.analyzeByHour recs)[i]? =
          some (TimeAnalyzer.zeroHourEntry i))) ∧
    (∀ trades : List ExecutionAnalyzer.ETrade,
      (ExecutionAnalyzer.analyzeExecutionByHour trades).length = 24 ∧
      (ExecutionAnalyzer.analyzeExecutionByHour trades).map (fun e => e.hour) =
        List.range 24 ∧
      (∀ i : ℕ, i < 24 → trades.countP (ExecutionAnalyzer.execContrib i) = 0 →
        (ExecutionAnalyzer.analyzeExecutionByHour trades)[i]? =
          some (ExecutionAnalyzer.zeroExecHourEntry i))) := by
  constructor
  · intro recs
    refine ⟨by simp [TimeAnalyzer.analyzeByHour], ?_, ?_⟩
    · rw [TimeAnalyzer.analyzeByHour, List.map_map]
      have hcg : ∀ x ∈ List.range 24,
          ((fun e => e.hour) ∘ TimeAnalyzer.mkHourEntry recs) x = id x :=
        fun x _ => rfl
      rw [List.map_congr_left hcg, List.map_id]
    · intro i hi hz
      rw [TimeAnalyzer.analyzeByHour, List.getElem?_map, List.getElem?_range hi,
        Option.map_some']
      rw [TimeAnalyzer.mkHourEntry_zero recs i hz]
  · intro trades
    refine ⟨by simp [ExecutionAnalyzer.analyzeExecutionByHour], ?_, ?_⟩
    · rw [ExecutionAnalyzer.analyzeExecutionByHour, List.map_map]
      have hcg : ∀ x ∈ List.range 24,
          ((fun e => e.hour) ∘ ExecutionAnalyzer.mkExecHourEntry trades) x = id x :=
        fun x _ => rfl
      rw [List.map_congr_left hcg, List.map_id]
    · intro i hi hz
      rw [ExecutionAnalyzer.analyzeExecutionByHour, List.getElem?_map,
        List.getElem?_range hi, Option.map_some']
      rw [ExecutionAnalyzer.mkExecHourEntry_zero trades i hz]

/-- Witness for C2: the empty input still yields the zero entry at
hour 0 in both analyzers. -/
theorem c2_hourly_always_24_witness :
    (TimeAnalyzer.analyzeByHour [])[0]? = some (TimeAnalyzer.zeroHourEntry 0) ∧
    (ExecutionAnalyzer.analyzeExecutionByHour [])[0]? =
      some (ExecutionAnalyzer.zeroExecHourEntry 0) :=
  ⟨(c2_hourly_always_24.1 []).2.2 0 (by norm_num) (by simp),
    (c2_hourly_always_24.2 []).2.2 0 (by norm_num) (by simp)⟩

/-- C4 (counterexample): a REALIZED_PNL income record with an absent
(falsy) timestamp is NOT excluded by `TimeAnalyzer.analyze_by_hour`: the
timestamp is read as 0 and the record lands in the hour-7 bucket
(epoch midnight UTC shifted by the +7 offset). -/
theorem c4_falsy_timestamp_counterexample :
    ((⟨none, some "REALIZED_PNL", none, some 5⟩ :
        TimeAnalyzer.IncomeRecord).timestamp.getD 0 = 0) ∧
    (TimeAnalyzer.analyzeByHour
        [⟨none, some "REALIZED_PNL", none, some 5⟩])[7]? =
      some ⟨7, 5, 1, 1, 100⟩ ∧
    (⟨7, 5, 1, 1, 100⟩ : TimeAnalyzer.HourEntry).trade_count ≠ 0 := by
  refine ⟨rfl, ?_, by norm_num⟩
  rw [TimeAnalyzer.analyzeByHour, List.getElem?_map,
    List.getElem?_range (by norm_num : (7 : ℕ) < 24), Option.map_some']
  norm_num [TimeAnalyzer.mkHourEntry, TimeAnalyzer.hourStatsAt,
    TimeAnalyzer.hourStep, TimeAnalyzer.hourContrib, vnHour, pyRound, rndHalfEven]

/-- C4 (amended): `ExecutionAnalyzer.analyze_execution_by_hour` ignores
falsy-timestamp trades (its output is unchanged when they are filtered
out), but `TimeAnalyzer.analyze_by_hour` does not: each hour's trade
count counts exactly the records matched by `hourContrib`, and a
REALIZED_PNL record with a falsy timestamp is matched by hour 7 and by
no other hour. -/
theorem c4_falsy_timestamp_handling :
    (∀ trades : List ExecutionAnalyzer.ETrade,
      ExecutionAnalyzer.analyzeExecutionByHour trades =
        ExecutionAnalyzer.analyzeExecutionByHour
          (trades.filter (fun t => t.timestamp.getD 0 ≠ 0))) ∧
    (∀ (recs : List TimeAnalyzer.IncomeRecord) (i : ℕ), i < 24 →
      ((TimeAnalyzer.analyzeByHour recs)[i]?).map (fun e => e.trade_count) =
        some (recs.countP (TimeAnalyzer.hourContrib i))) ∧
    (∀ r : TimeAnalyzer.IncomeRecord, r.timestamp.getD 0 = 0 →
      r.income_type = some "REALIZED_PNL" →
      TimeAnalyzer.hourContrib 7 r = true ∧
      ∀ i : ℕ, i ≠ 7 → TimeAnalyzer.hourContrib i r = false) := by
  refine ⟨?_, ?_, ?_⟩
  · intro trades
    rw [ExecutionAnalyzer.analyzeExecutionByHour,
      ExecutionAnalyzer.analyzeExecutionByHour]
    apply List.map_congr_left
    intro i _
    unfold ExecutionAnalyzer.mkExecHourEntry
    rw [ExecutionAnalyzer.execHourStats_filter]
  · intro recs i hi
    rw [TimeAnalyzer.analyzeByHour, List.getElem?_map, List.getElem?_range hi,
      Option.map_some', Option.map_some']
    rw [Option.some.injEq]
    exact TimeAnalyzer.hourStats_trades recs i
  · intro r h0 hty
    constructor
    · simp [TimeAnalyzer.hourContrib, h0, hty, vnHour]
    · intro i hne
      simp [TimeAnalyzer.hourContrib, h0, hty, vnHour]
      omega

/-- Witness for C4 at a concrete falsy-timestamp record and hour. -/
theorem c4_falsy_timestamp_handling_witness :
    TimeAnalyzer.hourContrib 7 ⟨some "BTCUSDT", some "REALIZED_PNL", none, some 5⟩ =
      true ∧
    TimeAnalyzer.hourContrib 0 ⟨some "BTCUSDT", some "REALIZED_PNL", none, some 5⟩ =
      false :=
  ⟨(c4_falsy_timestamp_handling.2.2 ⟨some "BTCUSDT", some "REALIZED_PNL", none,
      some 5⟩ rfl rfl).1,
    (c4_falsy_timestamp_handling.2.2 ⟨some "BTCUSDT", some "REALIZED_PNL", none,
      some 5⟩ rfl rfl).2 0 (by norm_num)⟩

namespace SymbolAnalyzer

/-- `record.get("symbol", "UNKNOWN")`. -/
def symVal (r : TimeAnalyzer.IncomeRecord) : String := r.symbol.getD "UNKNOWN"

/-- `record.get("income", 0)`. -/
def incomeVal (r : TimeAnalyzer.IncomeRecord) : ℚ := r.income.getD 0

/-- One `symbol_stats[symbol]` accumulator of
`SymbolAnalyzer.analyze_by_symbol`. -/
structure SymAcc where
  pnl : ℚ
  commission : ℚ
  trades : ℕ
  wins : ℕ
  losses : ℕ
deriving DecidableEq, Repr

/-- One iteration of the `analyze_by_symbol` loop, restricted to the
bucket of symbol `s` (the per-key view of the `defaultdict`): an empty
symbol is skipped; a REALIZED_PNL record counts a win when
`income > 0` and a loss OTHERWISE (zero pnl included); a COMMISSION
record accumulates its absolute amount. -/
def symStep (s : String) (acc : SymAcc) (r : TimeAnalyzer.IncomeRecord) : SymAcc :=
  if symVal r = "" then acc
  else if symVal r ≠ s then acc
  else if r.income_type = some "REALIZED_PNL" then
    { acc with
      pnl := acc.pnl + incomeVal r
      trades := acc.trades + 1
      wins := acc.wins + if 0 < incomeVal r then 1 else 0
      losses := acc.losses + if 0 < incomeVal r then 0 else 1 }
  else if r.income_type = some "COMMISSION" then
    { acc with commission := acc.commission + |incomeVal r| }
  else acc

/-- The accumulator of symbol `s` after the loop. -/
def symStatsAt (recs : List TimeAnalyzer.IncomeRecord) (s : String) : SymAcc :=
  recs.foldl (symStep s) ⟨0, 0, 0, 0, 0⟩

/-- The keys of `symbol_stats` in creation (first-touch) order: a key is
created when a non-empty-symbol record of income type REALIZED_PNL or
COMMISSION first accesses it. -/
def symKeys (recs : List TimeAnalyzer.IncomeRecord) : List String :=
  recs.foldl
    (fun ks r =>
      if symVal r = "" then ks
      else if r.income_type = some "REALIZED_PNL" ∨
          r.income_type = some "COMMISSION" then
        (if symVal r ∈ ks then ks else ks ++ [symVal r])
      else ks)
    []

/-- One element of the list returned by `analyze_by_symbol`. -/
structure SymbolEntry where
  symbol : String
  gross_pnl : ℚ
  commission : ℚ
  net_pnl : ℚ
  trade_count : ℕ
  win_count : ℕ
  loss_count : ℕ
  win_rate : ℚ
  avg_pnl_per_trade : ℚ
deriving DecidableEq, Repr

/-- The entry built for symbol `s` in the result loop. -/
def mkSymbolEntry (recs : List TimeAnalyzer.IncomeRecord) (s : String) :
    SymbolEntry :=
  { symbol := s
    gross_pnl := pyRound 2 (symStatsAt recs s).pnl
    commission := pyRound 2 (symStatsAt recs s).commission
    net_pnl := pyRound 2 ((symStatsAt recs s).pnl - (symStatsAt recs s).commission)
    trade_count := (symStatsAt recs s).trades
    win_count := (symStatsAt recs s).wins
    loss_count := (symStatsAt recs s).losses
    win_rate :=
      if 0 < (symStatsAt recs s).trades then
        pyRound 1
          (((symStatsAt recs s).wins : ℚ) / (symStatsAt recs s).trades * 100)
      else 0
    avg_pnl_per_trade :=
      if 0 < (symStatsAt recs s).trades then
        pyRound 4 ((symStatsAt recs s).pnl / (symStatsAt recs s).trades)
      else 0 }

/-- Stable insertion for the descending `net_pnl` sort
(`result.sort(key=..., reverse=True)`). -/
def insertByNetDesc (e : SymbolEntry) : List SymbolEntry → List SymbolEntry
  | [] => [e]
  | f :: rest =>
    if f.net_pnl < e.net_pnl then e :: f :: rest else f :: insertByNetDesc e rest

/-- Stable sort by `net_pnl` descending. -/
def sortByNetDesc : List SymbolEntry → List SymbolEntry
  | [] => []
  | e :: rest => insertByNetDesc e (sortByNetDesc rest)

/-- `SymbolAnalyzer.analyze_by_symbol`. -/
def analyzeBySymbol (income_records : List TimeAnalyzer.IncomeRecord) :
    List SymbolEntry :=
  sortByNetDesc ((symKeys income_records).map (mkSymbolEntry income_records))

theorem mem_insertByNetDesc {a e : SymbolEntry} {l : List SymbolEntry} :
    a ∈ insertByNetDesc e l ↔ a = e ∨ a ∈ l := by
  induction l with
  | nil => simp [insertByNetDesc]
  | cons f rest ih =>
    unfold insertByNetDesc
    split_ifs
    · simp [List.mem_cons]
    · simp only [List.mem_cons, ih]
      tauto

theorem mem_sortByNetDesc {a : SymbolEntry} {l : List SymbolEntry} :
    a ∈ sortByNetDesc l ↔ a ∈ l := by
  induction l with
  | nil => simp [sortByNetDesc]
  | cons e rest ih =>
    unfold sortByNetDesc
    rw [mem_insertByNetDesc, ih, List.mem_cons]

theorem symStats_partition_aux (s : String) (recs : List TimeAnalyzer.IncomeRecord)
    (acc : SymAcc) (h : acc.wins + acc.losses = acc.trades) :
    (recs.foldl (symStep s) acc).wins + (recs.foldl (symStep s) acc).losses =
      (recs.foldl (symStep s) acc).trades := by
  induction recs generalizing acc with
  | nil => exact h
  | cons r t ih =>
    rw [List.foldl_cons]
    apply ih
    unfold symStep
    split_ifs <;> (try dsimp only) <;> omega

theorem symStats_partition (recs : List TimeAnalyzer.IncomeRecord) (s : String) :
    (symStatsAt recs s).wins + (symStatsAt recs s).losses =
      (symStatsAt recs s).trades :=
  symStats_partition_aux s recs ⟨0, 0, 0, 0, 0⟩ rfl

end SymbolAnalyzer

/-- C10: in `analyze_by_symbol` a zero-pnl REALIZED_PNL record counts as
a loss, so every symbol entry satisfies
`win_count + loss_count = trade_count`; in contrast the risk engine's
`calculate_trade_stats` counts a zero-pnl trade as neither a winner nor
a loser. -/
theorem c10_symbol_partition :
    (∀ (recs : List TimeAnalyzer.IncomeRecord) (e : SymbolAnalyzer.SymbolEntry),
      e ∈ SymbolAnalyzer.analyzeBySymbol recs →
      e.win_count + e.loss_count = e.trade_count) ∧
    SymbolAnalyzer.analyzeBySymbol
        [⟨some "BTC", some "REALIZED_PNL", some 1000, some 0⟩] =
      [⟨"BTC", 0, 0, 0, 1, 0, 1, 0, 0⟩] ∧
    RiskAnalyzer.calculateTradeStats [⟨some 0⟩] =
      some ⟨1, 0, 0, 0, 0, 0, 0, 0, 0, 99.99, 99.99, 0, 0, 0, 0, 0, 0⟩ ∧
    (0 : ℕ) + 0 ≠ 1 := by
  refine ⟨?_, ?_, ?_, by norm_num⟩
  · intro recs e he
    rw [SymbolAnalyzer.analyzeBySymbol, SymbolAnalyzer.mem_sortByNetDesc] at he
    obtain ⟨s, _, rfl⟩ := List.mem_map.mp he
    exact SymbolAnalyzer.symStats_partition recs s
  · rw [SymbolAnalyzer.analyzeBySymbol]
    have hkeys : SymbolAnalyzer.symKeys
        [⟨some "BTC", some "REALIZED_PNL", some 1000, some 0⟩] = ["BTC"] := by
      simp [SymbolAnalyzer.symKeys, SymbolAnalyzer.symVal]
    have hstats : SymbolAnalyzer.symStatsAt
        [⟨some "BTC", some "REALIZED_PNL", some 1000, some 0⟩] "BTC" =
        ⟨0, 0, 1, 0, 1⟩ := by
      simp [SymbolAnalyzer.symStatsAt, SymbolAnalyzer.symStep,
        SymbolAnalyzer.symVal, SymbolAnalyzer.incomeVal]
    rw [hkeys]
    simp only [List.map_cons, List.map_nil]
    rw [SymbolAnalyzer.sortByNetDesc, SymbolAnalyzer.sortByNetDesc,
      SymbolAnalyzer.insertByNetDesc]
    unfold SymbolAnalyzer.mkSymbolEntry
    rw [hstats]
    norm_num [pyRound_zero]
  · norm_num [RiskAnalyzer.calculateTradeStats, RiskAnalyzer.pnlListOf,
      RiskAnalyzer.winnersOf, RiskAnalyzer.losersOf, RiskAnalyzer.grossProfitOf,
      RiskAnalyzer.grossLossOf, RiskAnalyzer.winRateOf, RiskAnalyzer.avgWinOf,
      RiskAnalyzer.avgLossOf, RiskAnalyzer.profitFactorOf,
      RiskAnalyzer.riskRewardOf, RiskAnalyzer.maxOr0, RiskAnalyzer.minOr0,
      RiskAnalyzer.calculateStreaks, RiskAnalyzer.streakStep,
      PyFloat.pyMin, pyRound, rndHalfEven]

/-- Witness for C10 at the concrete zero-pnl record. -/
theorem c10_symbol_partition_witness :
    (⟨"BTC", 0, 0, 0, 1, 0, 1, 0, 0⟩ : SymbolAnalyzer.SymbolEntry).win_count +
        (⟨"BTC", 0, 0, 0, 1, 0, 1, 0, 0⟩ : SymbolAnalyzer.SymbolEntry).loss_count =
      (⟨"BTC", 0, 0, 0, 1, 0, 1, 0, 0⟩ : SymbolAnalyzer.SymbolEntry).trade_count :=
  c10_symbol_partition.1 [⟨some "BTC", some "REALIZED_PNL", some 1000, some 0⟩]
    ⟨"BTC", 0, 0, 0, 1, 0, 1, 0, 0⟩
    (by rw [c10_symbol_partition.2.1]; exact List.mem_singleton.mpr rfl)

/-- Round half to even on the reals (Python `round` on the value of a
float expression whose inputs involve a square root). -/
noncomputable def rndHalfEvenR (x : ℝ) : ℤ :=
  if x - (⌊x⌋ : ℝ) < 1/2 then ⌊x⌋
  else if 1/2 < x - (⌊x⌋ : ℝ) then ⌊x⌋ + 1
  else if ⌊x⌋ % 2 = 0 then ⌊x⌋ else ⌊x⌋ + 1

/-- Python's `round(x, n)` on reals. -/
noncomputable def pyRoundR (n : ℕ) (x : ℝ) : ℝ :=
  (rndHalfEvenR (x * 10 ^ n) : ℝ) / 10 ^ n

namespace RiskAnalyzer

/-- The excess return `avg_return - risk_free_rate /
annualization_factor` of the Sortino computation. -/
def sortinoExcess (daily_returns : List ℚ)
    (risk_free_rate annualization_factor : ℚ) : ℚ :=
  daily_returns.sum / daily_returns.length -
    risk_free_rate / annualization_factor

/-- `[r for r in daily_returns if r < 0]`. -/
def negativeReturns (daily_returns : List ℚ) : List ℚ :=
  daily_returns.filter (fun r => r < 0)

/-- `sum(r ** 2 for r in negative_returns) / len(negative_returns)`
(population variance over the negative returns only). -/
def downsideVarianceOf (daily_returns : List ℚ) : ℚ :=
  ((negativeReturns daily_returns).map (fun r => r ^ 2)).sum /
    (negativeReturns daily_returns).length

/-- Return value of `calculate_sortino_ratio`: either the
`float('inf')` sentinel or a finite float. -/
inductive SortinoResult where
  | posInf
  | val (x : ℝ)

/-- `RiskAnalyzer.calculate_sortino_ratio`. -/
noncomputable def calculateSortino (daily_returns : List ℚ)
    (risk_free_rate annualization_factor : ℚ) : SortinoResult :=
  if daily_returns.length < 2 then .val 0
  else if negativeReturns daily_returns = [] then
    (if 0 < sortinoExcess daily_returns risk_free_rate annualization_factor
     then .posInf else .val 0)
  else
    if Real.sqrt ((downsideVarianceOf daily_returns : ℚ) : ℝ) = 0 then .val 0
    else
      .val (pyRoundR 2
        (((sortinoExcess daily_returns risk_free_rate annualization_factor : ℚ) : ℝ) /
            Real.sqrt ((downsideVarianceOf daily_returns : ℚ) : ℝ) *
          Real.sqrt ((annualization_factor : ℚ) : ℝ)))

end RiskAnalyzer

/-- C3 (counterexample): the singleton return list `[1]` has no negative
returns and a positive excess return, yet `calculate_sortino_ratio`
returns 0 — not the infinity sentinel — because the fewer-than-two
observations guard fires first. -/
theorem c3_sortino_counterexample :
    RiskAnalyzer.negativeReturns [1] = [] ∧
    0 < RiskAnalyzer.sortinoExcess [1] 0 365 ∧
    RiskAnalyzer.calculateSortino [1] 0 365 ≠
      RiskAnalyzer.SortinoResult.posInf := by
  refine ⟨?_, ?_, ?_⟩
  · norm_num [RiskAnalyzer.negativeReturns]
  · norm_num [RiskAnalyzer.sortinoExcess]
  · have hv : RiskAnalyzer.calculateSortino [1] 0 365 =
        RiskAnalyzer.SortinoResult.val 0 := by
      unfold RiskAnalyzer.calculateSortino
      rw [if_pos (by norm_num)]
    rw [hv]
    simp

/-- C3 (amended): for return lists of at least two observations (and a
positive annualization factor), `calculate_sortino_ratio` returns the
infinity sentinel exactly when there are no strictly negative returns
and the excess return is positive, and returns 0 when there are no
negative returns and the excess return is ≤ 0; lists of fewer than two
observations always get 0. -/
theorem c3_sortino_sentinel (daily : List ℚ) (rf af : ℚ)
    (hlen : 2 ≤ daily.length) (_haf : 0 < af) :
    (RiskAnalyzer.calculateSortino daily rf af =
        RiskAnalyzer.SortinoResult.posInf ↔
      RiskAnalyzer.negativeReturns daily = [] ∧
        0 < RiskAnalyzer.sortinoExcess daily rf af) ∧
    (RiskAnalyzer.negativeReturns daily = [] →
      RiskAnalyzer.sortinoExcess daily rf af ≤ 0 →
      RiskAnalyzer.calculateSortino daily rf af =
        RiskAnalyzer.SortinoResult.val 0) := by
  have hnl : ¬ daily.length < 2 := by omega
  unfold RiskAnalyzer.calculateSortino
  rw [if_neg hnl]
  by_cases hneg : RiskAnalyzer.negativeReturns daily = []
  · rw [if_pos hneg]
    by_cases hex : 0 < RiskAnalyzer.sortinoExcess daily rf af
    · rw [if_pos hex]
      exact ⟨⟨fun _ => ⟨hneg, hex⟩, fun _ => rfl⟩,
        fun _ h2 => absurd hex (not_lt.mpr h2)⟩
    · rw [if_neg hex]
      refine ⟨⟨fun hc => ?_, fun hp => absurd hp.2 hex⟩, fun _ _ => rfl⟩
      simp at hc
  · rw [if_neg hneg]
    refine ⟨⟨fun hc => ?_, fun hp => absurd hp.1 hneg⟩,
      fun h1 _ => absurd h1 hneg⟩
    split_ifs at hc

/-- Witness for C3: two positive returns produce the sentinel. -/
theorem c3_sortino_sentinel_witness :
    RiskAnalyzer.calculateSortino [1, 1] 0 365 =
      RiskAnalyzer.SortinoResult.posInf :=
  (c3_sortino_sentinel [1, 1] 0 365 (by norm_num) (by norm_num)).1.mpr
    ⟨by norm_num [RiskAnalyzer.negativeReturns],
      by norm_num [RiskAnalyzer.sortinoExcess]⟩

namespace RegimeAnalyzer

/-- A daily-pnl dict as read by
`RegimeAnalyzer.detect_volatility_regime` (`d.get("net_pnl", 0)`). -/
structure DayRecord where
  net_pnl : Option ℚ
deriving DecidableEq, Repr

/-- `[d.get("net_pnl", 0) for d in daily_pnl]`. -/
def pnlValues (daily_pnl : List DayRecord) : List ℚ :=
  daily_pnl.map (fun d => d.net_pnl.getD 0)

/-- `sum(pnl_values) / len(pnl_values)`. -/
def meanOf (l : List ℚ) : ℚ := l.sum / l.length

/-- Bessel-corrected sample variance
`sum((p - mean) ** 2) / (len - 1)`. -/
def sampleVariance (l : List ℚ) : ℚ :=
  (l.map (fun p => (p - meanOf l) ^ 2)).sum / ((l.length : ℚ) - 1)

/-- The regime/description pair chosen by the classification if-chain
on the volatility percentage. -/
noncomputable def volClassify (v : ℝ) : String × String :=
  if v < 1 then ("LOW_VOLATILITY", "Calm market, smaller moves")
  else if v < 3 then ("NORMAL_VOLATILITY", "Standard market conditions")
  else ("HIGH_VOLATILITY", "Elevated volatility, larger moves")

/-- `(std_dev / base_capital) * 100 if base_capital > 0 else 0`, with
the fixed reference capital `base_capital = 100`. -/
noncomputable def volatilityPct (daily_pnl : List DayRecord) : ℝ :=
  if (0 : ℚ) < 100 then
    Real.sqrt ((sampleVariance (pnlValues daily_pnl) : ℚ) : ℝ) / 100 * 100
  else 0

/-- Result dict of `detect_volatility_regime`; the insufficient-data
branch returns a dict with different keys, hence the `Option` fields. -/
structure VolRegimeResult where
  regime : String
  volatility : Option ℚ
  volatility_pct : Option ℝ
  std_dev_usd : Option ℝ
  description : Option String
  days_analyzed : Option ℕ

/-- `RegimeAnalyzer.detect_volatility_regime`. -/
noncomputable def detectVolatilityRegime (daily_pnl : List DayRecord) :
    VolRegimeResult :=
  if daily_pnl.length < 5 then
    { regime := "INSUFFICIENT_DATA", volatility := some 0, volatility_pct := none,
      std_dev_usd := none, description := none, days_analyzed := none }
  else
    { regime := (volClassify (volatilityPct daily_pnl)).1
      volatility := none
      volatility_pct := some (pyRoundR 2 (volatilityPct daily_pnl))
      std_dev_usd := some (pyRoundR 2
        (Real.sqrt ((sampleVariance (pnlValues daily_pnl) : ℚ) : ℝ)))
      description := some (volClassify (volatilityPct daily_pnl)).2
      days_analyzed := some (pnlValues daily_pnl).length }

end RegimeAnalyzer

/-- C8: `detect_volatility_regime` reports INSUFFICIENT_DATA for every
input of fewer than 5 daily observations, and classifies the 7-day net
pnl series `[5, -3, 4, -2, 6, -1, 3]` (reference capital 100) as
HIGH_VOLATILITY: its sample standard deviation, as a percentage of the
capital constant, is at least 3. -/
theorem c8_volatility_regime :
    (∀ daily : List RegimeAnalyzer.DayRecord, daily.length < 5 →
      (RegimeAnalyzer.detectVolatilityRegime daily).regime =
        "INSUFFICIENT_DATA") ∧
    (RegimeAnalyzer.detectVolatilityRegime
        [⟨some 5⟩, ⟨some (-3)⟩, ⟨some 4⟩, ⟨some (-2)⟩, ⟨some 6⟩, ⟨some (-1)⟩,
          ⟨some 3⟩]).regime = "HIGH_VOLATILITY" ∧
    (3 : ℝ) ≤ RegimeAnalyzer.volatilityPct
      [⟨some 5⟩, ⟨some (-3)⟩, ⟨some 4⟩, ⟨some (-2)⟩, ⟨some 6⟩, ⟨some (-1)⟩,
        ⟨some 3⟩] := by
  have hvar : RegimeAnalyzer.sampleVariance (RegimeAnalyzer.pnlValues
      [⟨some 5⟩, ⟨some (-3)⟩, ⟨some 4⟩, ⟨some (-2)⟩, ⟨some 6⟩, ⟨some (-1)⟩,
        ⟨some 3⟩]) = 278/21 := by
    norm_num [RegimeAnalyzer.sampleVariance, RegimeAnalyzer.meanOf,
      RegimeAnalyzer.pnlValues]
  have hstd : (3 : ℝ) ≤ Real.sqrt (((278 : ℚ)/21 : ℚ) : ℝ) := by
    rw [Real.le_sqrt (by norm_num) (by push_cast; norm_num)]
    push_cast
    norm_num
  have hvp : (3 : ℝ) ≤ RegimeAnalyzer.volatilityPct
      [⟨some 5⟩, ⟨some (-3)⟩, ⟨some 4⟩, ⟨some (-2)⟩, ⟨some 6⟩, ⟨some (-1)⟩,
        ⟨some 3⟩] := by
    unfold RegimeAnalyzer.volatilityPct
    rw [if_pos (by norm_num), hvar]
    rw [div_mul_cancel₀ _ (by norm_num : (100 : ℝ) ≠ 0)]
    exact hstd
  refine ⟨?_, ?_, hvp⟩
  · intro daily h
    unfold RegimeAnalyzer.detectVolatilityRegime
    rw [if_pos h]
  · unfold RegimeAnalyzer.detectVolatilityRegime
    rw [if_neg (by norm_num)]
    show (RegimeAnalyzer.volClassify _).1 = _
    unfold RegimeAnalyzer.volClassify
    rw [if_neg (by push_neg; linarith), if_neg (by push_neg; linarith)]

/-- Witness for C8 at a one-day input. -/
theorem c8_volatility_regime_witness :
    (RegimeAnalyzer.detectVolatilityRegime [⟨some 1⟩]).regime =
      "INSUFFICIENT_DATA" :=
  c8_volatility_regime.1 [⟨some 1⟩] (by norm_num)
